import Mathlib

/-!
Verification of the SVM training core in `Assignment3/q2.py`.

The embedding models numpy one-dimensional arrays as `List ℚ`, two-dimensional
arrays as `List (List ℚ)`, and real arithmetic as exact rational arithmetic.
The process-wide random source is modelled by explicit streams of values that
each random primitive consumes. An operation that raises in Python returns
`none` here.
-/

/-- Dot product of two vectors, `np.linalg.multi_dot([w, x])` and `np.dot(w, x)`
for one-dimensional arrays. -/
def dot (w x : List ℚ) : ℚ :=
  (List.zipWith (fun a b => a * b) w x).sum

/-- Elementwise vector addition (numpy broadcasting on equal shapes). -/
def vecAdd (a b : List ℚ) : List ℚ :=
  List.zipWith (fun x y => x + y) a b

/-- Elementwise vector subtraction (numpy broadcasting on equal shapes). -/
def vecSub (a b : List ℚ) : List ℚ :=
  List.zipWith (fun x y => x - y) a b

/-- Scalar multiple of a vector, `c * v` in numpy. -/
def scale (c : ℚ) (v : List ℚ) : List ℚ :=
  v.map (fun x => c * x)

/-- Sum of a stack of row vectors along axis 0, `np.sum(arr, axis=0)` for a
non-empty stack of equal-length rows. -/
def sumVecs : List (List ℚ) → List ℚ
  | [] => []
  | v :: vs => vs.foldl vecAdd v

/-- The SVM model state: penalty coefficient `c` and weight vector `w`
(`SVM.__init__` stores both; `w` is drawn from a normal distribution by the
constructor, which the training-loop embedding models by consuming a stream). -/
structure SVM where
  c : ℚ
  w : List ℚ
deriving DecidableEq, Repr

/-- `SVM.hinge_loss`: for each row index `i` in `range(len(X))` append
`max(1 - y[i] * multi_dot([w.T, X[i]]), 0)`. -/
def SVM.hinge_loss (svm : SVM) (X : List (List ℚ)) (y : List ℚ) : List ℚ :=
  (List.range X.length).map (fun i =>
    max (1 - y.getD i 0 * dot svm.w (X.getD i [])) 0)

/-- `SVM.grad`: per-example gradients are `np.zeros(X[0].shape)` when the
example's hinge loss is `0` and `y[i] * X[i]` otherwise (built by enumerating
`hinge_loss(X, y)`); the result is `w - (c / len(X)) * np.sum(grads, axis=0)`. -/
def SVM.grad (svm : SVM) (X : List (List ℚ)) (y : List ℚ) : List ℚ :=
  let hinge_loss_grads :=
    (svm.hinge_loss X y).enum.map (fun p =>
      if p.2 = 0 then List.replicate (X.getD 0 []).length 0
      else scale (y.getD p.1 0) (X.getD p.1 []))
  vecSub svm.w (scale (svm.c / (X.length : ℚ)) (sumVecs hinge_loss_grads))

/-- `SVM.classify`: `1 if np.dot(w.T, x) >= 0 else -1` for each row `x` of `X`. -/
def SVM.classify (svm : SVM) (X : List (List ℚ)) : List ℤ :=
  X.map (fun x => if 0 ≤ dot svm.w x then 1 else -1)

/-- The gradient exactly as the specification words it: `w − (c / n) ·
sum_i(contribution_i)` where the contribution of row `i` is the zero vector
(of `w`'s shape) when row `i`'s hinge loss is `0` and `y_i · X_i` otherwise. -/
def gradClaim (svm : SVM) (X : List (List ℚ)) (y : List ℚ) : List ℚ :=
  vecSub svm.w (scale (svm.c / (X.length : ℚ))
    (sumVecs ((List.range X.length).map (fun i =>
      if (svm.hinge_loss X y).getD i 0 = 0 then List.replicate svm.w.length 0
      else scale (y.getD i 0) (X.getD i [])))))

/-- `GDOptimizer` as used on the scalar test function: learning rate, momentum
coefficient, and the persistent velocity, which `__init__` sets to `0.0`. -/
structure GDOptimizer where
  lr : ℚ
  beta : ℚ
  vel : ℚ
deriving DecidableEq, Repr

/-- `GDOptimizer.__init__(lr, beta)` with `vel = 0.0`. -/
def GDOptimizer.mk0 (lr beta : ℚ) : GDOptimizer :=
  { lr := lr, beta := beta, vel := 0 }

/-- `GDOptimizer.update_params` on scalars: assign
`self.vel = self.beta * self.vel + self.lr * grad`, then return
`params - self.vel`. The first component is the returned value, the second the
optimizer state after the call. -/
def GDOptimizer.update_params (o : GDOptimizer) (params grad : ℚ) :
    ℚ × GDOptimizer :=
  let vel := o.beta * o.vel + o.lr * grad
  (params - vel, { o with vel := vel })

/-- `GDOptimizer` applied to a vector parameter stream (the SVM weights): the
scalar initial velocity `0.0` broadcasts to the zero vector on the first
update, so the velocity state is a vector here. -/
structure GDOptimizerV where
  lr : ℚ
  beta : ℚ
  vel : List ℚ
deriving DecidableEq, Repr

/-- `GDOptimizer.update_params` on vectors: assign
`self.vel = self.beta * self.vel + self.lr * grad` elementwise, then return
`params - self.vel`. -/
def GDOptimizerV.update_params (o : GDOptimizerV) (params grad : List ℚ) :
    List ℚ × GDOptimizerV :=
  let vel := vecAdd (scale o.beta o.vel) (scale o.lr grad)
  (vecSub params vel, { o with vel := vel })

/-- Optimizer state after `k` successive `update_params` calls that all pass
the constant gradient `g`, starting from a freshly constructed optimizer
(`vel = 0.0`). The `params` argument does not influence the velocity, so the
iteration passes `0`. -/
def stateAfter (lr beta g : ℚ) : ℕ → GDOptimizer
  | 0 => GDOptimizer.mk0 lr beta
  | k + 1 => ((stateAfter lr beta g k).update_params 0 g).2

/-- One draw of `np.random.choice(pool, m, replace=False)` once the size check
has passed, driven by a stream `s` of raw random numbers: each step picks the
element at position `s_j mod (remaining pool size)` and removes it from the
pool, so no element is picked twice. -/
def sampleNoReplace : List ℕ → ℕ → List ℕ → List ℕ
  | _, 0, _ => []
  | pool, m + 1, s =>
    let a := pool.getD (s.headD 0 % pool.length) 0
    a :: sampleNoReplace (pool.erase a) m s.tail

/-- `np.random.choice(pool, m, replace=False)`: raises `ValueError` (here
`none`) when `m` exceeds the population size, otherwise returns `m` draws
without replacement. -/
def npChoiceNoReplace (pool : List ℕ) (m : ℕ) (s : List ℕ) :
    Option (List ℕ) :=
  if pool.length < m then none else some (sampleNoReplace pool m s)

/-- `BatchSampler` state: `__init__` stores `num_points = data.shape[0]`,
`features = data.shape[1]`, the requested `batch_size`, the dataset, and
`indices = np.arange(num_points)`. -/
structure BatchSampler where
  num_points : ℕ
  features : ℕ
  batch_size : ℕ
  data : List (List ℚ)
  targets : List ℚ
  indices : List ℕ
deriving DecidableEq, Repr

/-- `BatchSampler.__init__(data, targets, batch_size)`. -/
def BatchSampler.mk0 (data : List (List ℚ)) (targets : List ℚ)
    (batch_size : ℕ) : BatchSampler :=
  { num_points := data.length
    features := (data.getD 0 []).length
    batch_size := batch_size
    data := data
    targets := targets
    indices := List.range data.length }

/-- `BatchSampler.random_batch_indices(m)`: `np.random.choice(self.indices,
self.batch_size, replace=False)` when `m is None`, else the same with `m`. -/
def BatchSampler.random_batch_indices (bs : BatchSampler) (m : Option ℕ)
    (s : List ℕ) : Option (List ℕ) :=
  match m with
  | none => npChoiceNoReplace bs.indices bs.batch_size s
  | some mm => npChoiceNoReplace bs.indices mm s

/-- `BatchSampler.get_batch(m)`: sample indices, then return
`np.take(self.data, indices, 0)` paired with `self.targets[indices]`. -/
def BatchSampler.get_batch (bs : BatchSampler) (m : Option ℕ) (s : List ℕ) :
    Option (List (List ℚ) × List ℚ) :=
  (bs.random_batch_indices m s).map (fun indices =>
    (indices.map (fun i => bs.data.getD i []),
     indices.map (fun i => bs.targets.getD i 0)))

/-- The state of the process-wide seeded random source: a stream of normal
draws (consumed by `SVM.__init__`) and a stream of raw numbers driving
`np.random.choice`. Seeding the source fixes both streams. -/
structure RandState where
  normals : List ℚ
  choices : List ℕ
deriving DecidableEq, Repr

/-- The body of the loop in `optimize_svm`: for each of the remaining
iterations draw a batch with `get_batch()`, then
`svm.w = optimizer.update_params(svm.w, svm.grad(X_batch, y_batch))`;
a failed draw (oversized batch) propagates as `none`. -/
def trainLoop (sampler : BatchSampler) :
    SVM → GDOptimizerV → List ℕ → ℕ → Option SVM
  | svm, _, _, 0 => some svm
  | svm, opt, s, k + 1 =>
    match sampler.get_batch none s with
    | none => none
    | some (Xb, yb) =>
      let step := opt.update_params svm.w (svm.grad Xb yb)
      trainLoop sampler { svm with w := step.1 } step.2
        (s.drop sampler.batch_size) k

/-- `optimize_svm(train_data, train_targets, penalty, optimizer, batchsize,
iters)`: build a `BatchSampler` over the training set, build an `SVM` whose
weights are drawn from the random source, then run the training loop. The
optimizer argument is a freshly constructed `GDOptimizer(lr, beta)` whose
scalar zero velocity broadcasts to the zero vector of feature length. -/
def optimize_svm (train_data : List (List ℚ)) (train_targets : List ℚ)
    (penalty lr beta : ℚ) (batchsize iters : ℕ) (rs : RandState) :
    Option SVM :=
  let sampler := BatchSampler.mk0 train_data train_targets batchsize
  let svm : SVM := { c := penalty, w := rs.normals.take sampler.features }
  let opt : GDOptimizerV :=
    { lr := lr, beta := beta, vel := List.replicate sampler.features 0 }
  trainLoop sampler svm opt rs.choices iters

/-- A call `svm.hinge_loss(X, y)` observed together with the state of the
receiver and both arguments after the call: the method body only reads
`self.w`, `X` and `y` (it appends to a fresh local list), so the post-call
state is the pre-call state. -/
def SVM.hinge_loss_call (svm : SVM) (X : List (List ℚ)) (y : List ℚ) :
    List ℚ × SVM × List (List ℚ) × List ℚ :=
  (svm.hinge_loss X y, svm, X, y)

/-- A call `svm.grad(X, y)` observed together with the post-call state of the
receiver and both arguments: the body builds fresh arrays from reads of
`self.w`, `self.c`, `X` and `y` and assigns no attribute or array element. -/
def SVM.grad_call (svm : SVM) (X : List (List ℚ)) (y : List ℚ) :
    List ℚ × SVM × List (List ℚ) × List ℚ :=
  (svm.grad X y, svm, X, y)

/-- A call `svm.classify(X)` observed together with the post-call state of the
receiver and the argument: the body is a single read-only comprehension. -/
def SVM.classify_call (svm : SVM) (X : List (List ℚ)) :
    List ℤ × SVM × List (List ℚ) :=
  (svm.classify X, svm, X)

theorem length_scale (c : ℚ) (v : List ℚ) : (scale c v).length = v.length :=
  List.length_map v _

theorem length_vecAdd (a b : List ℚ) :
    (vecAdd a b).length = min a.length b.length :=
  List.length_zipWith _ a b

theorem length_vecSub (a b : List ℚ) :
    (vecSub a b).length = min a.length b.length :=
  List.length_zipWith _ a b

theorem foldl_vecAdd_length (d : ℕ) :
    ∀ (vs : List (List ℚ)) (acc : List ℚ), acc.length = d →
      (∀ v ∈ vs, v.length = d) → (vs.foldl vecAdd acc).length = d := by
  intro vs
  induction vs with
  | nil => intro acc hacc _; exact hacc
  | cons v vs ih =>
    intro acc hacc hall
    simp only [List.foldl_cons]
    apply ih
    · rw [length_vecAdd, hacc, hall v (List.mem_cons_self v vs)]
      exact Nat.min_self d
    · intro u hu
      exact hall u (List.mem_cons_of_mem v hu)

theorem sumVecs_length (d : ℕ) (l : List (List ℚ)) (hne : l ≠ [])
    (h : ∀ v ∈ l, v.length = d) : (sumVecs l).length = d := by
  cases l with
  | nil => exact absurd rfl hne
  | cons v vs =>
    show (vs.foldl vecAdd v).length = d
    exact foldl_vecAdd_length d vs v (h v (List.mem_cons_self v vs))
      (fun u hu => h u (List.mem_cons_of_mem v hu))

theorem sampleNoReplace_length (m : ℕ) :
    ∀ (pool s : List ℕ), m ≤ pool.length →
      (sampleNoReplace pool m s).length = m := by
  induction m with
  | zero => intro pool s _; rfl
  | succ k ih =>
    intro pool s hm
    have hpos : 0 < pool.length := by omega
    have hj : s.headD 0 % pool.length < pool.length := Nat.mod_lt _ hpos
    have ha : pool.getD (s.headD 0 % pool.length) 0 ∈ pool := by
      rw [List.getD_eq_getElem _ _ hj]
      exact List.getElem_mem hj
    have herase :
        (pool.erase (pool.getD (s.headD 0 % pool.length) 0)).length =
          pool.length - 1 :=
      List.length_erase_of_mem ha
    show (_ :: sampleNoReplace _ k s.tail).length = k + 1
    rw [List.length_cons, ih _ s.tail (by omega)]

theorem sampleNoReplace_nodup_mem (m : ℕ) :
    ∀ (pool s : List ℕ), m ≤ pool.length → pool.Nodup →
      (sampleNoReplace pool m s).Nodup ∧
        ∀ x ∈ sampleNoReplace pool m s, x ∈ pool := by
  induction m with
  | zero =>
    intro pool s _ _
    exact ⟨List.nodup_nil, fun x hx => absurd hx (List.not_mem_nil x)⟩
  | succ k ih =>
    intro pool s hm hnd
    have hpos : 0 < pool.length := by omega
    have hj : s.headD 0 % pool.length < pool.length := Nat.mod_lt _ hpos
    have ha : pool.getD (s.headD 0 % pool.length) 0 ∈ pool := by
      rw [List.getD_eq_getElem _ _ hj]
      exact List.getElem_mem hj
    have herase :
        (pool.erase (pool.getD (s.headD 0 % pool.length) 0)).length =
          pool.length - 1 :=
      List.length_erase_of_mem ha
    obtain ⟨hnd2, hsub2⟩ :=
      ih (pool.erase (pool.getD (s.headD 0 % pool.length) 0)) s.tail
        (by omega) (hnd.erase _)
    constructor
    · show (_ :: sampleNoReplace _ k s.tail).Nodup
      refine List.nodup_cons.mpr ⟨?_, hnd2⟩
      intro hmem
      exact hnd.not_mem_erase (hsub2 _ hmem)
    · intro x hx
      rcases List.mem_cons.mp hx with h | h
      · rw [h]; exact ha
      · exact List.erase_subset _ _ (hsub2 x h)

theorem npChoice_range_spec (N m : ℕ) (s : List ℕ) :
    (m ≤ N → ∃ l, npChoiceNoReplace (List.range N) m s = some l ∧
      l.length = m ∧ l.Nodup ∧ ∀ x ∈ l, x < N) ∧
    (N < m → npChoiceNoReplace (List.range N) m s = none) := by
  constructor
  · intro hm
    have hm2 : m ≤ (List.range N).length := by rw [List.length_range]; exact hm
    refine ⟨sampleNoReplace (List.range N) m s, ?_, ?_, ?_, ?_⟩
    · unfold npChoiceNoReplace
      rw [if_neg (by omega : ¬ (List.range N).length < m)]
    · exact sampleNoReplace_length m _ s hm2
    · exact (sampleNoReplace_nodup_mem m _ s hm2 (List.nodup_range N)).1
    · intro x hx
      exact List.mem_range.mp
        ((sampleNoReplace_nodup_mem m _ s hm2 (List.nodup_range N)).2 x hx)
  · intro hm
    unfold npChoiceNoReplace
    rw [if_pos (by rw [List.length_range]; exact hm)]

theorem hinge_loss_length (svm : SVM) (X : List (List ℚ)) (y : List ℚ) :
    (svm.hinge_loss X y).length = X.length := by
  simp [SVM.hinge_loss]

theorem gradLists_eq (svm : SVM) (X : List (List ℚ)) (y : List ℚ)
    (hX : X ≠ []) (hrow : ∀ r ∈ X, r.length = svm.w.length) :
    (svm.hinge_loss X y).enum.map (fun p =>
      if p.2 = 0 then List.replicate (X.getD 0 []).length 0
      else scale (y.getD p.1 0) (X.getD p.1 [])) =
    (List.range X.length).map (fun i =>
      if (svm.hinge_loss X y).getD i 0 = 0 then List.replicate svm.w.length 0
      else scale (y.getD i 0) (X.getD i [])) := by
  have hlen := hinge_loss_length svm X y
  have hX0len : (X.getD 0 []).length = svm.w.length := by
    have h0 : 0 < X.length := List.length_pos.mpr hX
    apply hrow
    rw [List.getD_eq_getElem _ _ h0]
    exact List.getElem_mem h0
  apply List.ext_getElem
  · simp [hlen]
  · intro i h1 h2
    have hiX : i < X.length := by
      simpa using h2
    have hihl : i < (svm.hinge_loss X y).length := by omega
    simp only [List.getElem_map, List.getElem_enum, List.getElem_range]
    rw [List.getD_eq_getElem _ _ hihl]
    simp only [hX0len]

/-- C1: for a non-empty batch whose rows match `w`'s length, `grad(X, y)`
returns `w − (c / n) ·` (sum of per-example contributions), the contribution
of row `i` being the zero vector when that row's hinge loss is `0` and
`y_i · X_i` otherwise, and the returned vector has the same shape as `w`. -/
theorem C1_grad_formula_and_shape (svm : SVM) (X : List (List ℚ)) (y : List ℚ)
    (hX : X ≠ []) (hrow : ∀ r ∈ X, r.length = svm.w.length)
    (hy : y.length = X.length) :
    svm.grad X y = gradClaim svm X y ∧
      (svm.grad X y).length = svm.w.length := by
  have heq : svm.grad X y = gradClaim svm X y := by
    unfold SVM.grad gradClaim
    rw [gradLists_eq svm X y hX hrow]
  refine ⟨heq, ?_⟩
  rw [heq]
  unfold gradClaim
  rw [length_vecSub, length_scale]
  rw [sumVecs_length svm.w.length _ ?hne ?hall]
  · exact Nat.min_self _
  case hne =>
    have h0 : 0 < X.length := List.length_pos.mpr hX
    simp only [ne_eq, List.map_eq_nil_iff, List.range_eq_nil]
    omega
  case hall =>
    intro v hv
    obtain ⟨i, hi, hfv⟩ := List.mem_map.mp hv
    have hiX : i < X.length := List.mem_range.mp hi
    rw [← hfv]
    by_cases hc : (svm.hinge_loss X y).getD i 0 = 0
    · rw [if_pos hc]
      exact List.length_replicate _ _
    · simp only [if_neg hc]
      rw [length_scale]
      apply hrow
      rw [List.getD_eq_getElem _ _ hiX]
      exact List.getElem_mem hiX

/-- Witness for C1 at a concrete two-row batch with `c = 2`, `w = [1, -1]`. -/
theorem C1_grad_formula_and_shape_witness :
    (SVM.mk 2 [1, -1]).grad [[1, 2], [3, 4]] [1, -1] =
        gradClaim (SVM.mk 2 [1, -1]) [[1, 2], [3, 4]] [1, -1] ∧
      ((SVM.mk 2 [1, -1]).grad [[1, 2], [3, 4]] [1, -1]).length =
        (SVM.mk 2 [1, -1]).w.length :=
  C1_grad_formula_and_shape (SVM.mk 2 [1, -1]) [[1, 2], [3, 4]] [1, -1]
    (by decide) (by decide) (by decide)

/-- C2: one call to `update_params` stores `beta * vel + lr * grad` as the new
velocity in the returned optimizer state, returns `params -` (new velocity),
keeps `lr` and `beta` unchanged so the new velocity is what the next call
sees, and returns a fresh value whose shape equals `params`. -/
theorem C2_update_params_momentum (o : GDOptimizerV) (params grad : List ℚ)
    (hp : params.length = grad.length) (hv : o.vel.length = grad.length) :
    (o.update_params params grad).2.vel =
      vecAdd (scale o.beta o.vel) (scale o.lr grad) ∧
    (o.update_params params grad).1 =
      vecSub params (o.update_params params grad).2.vel ∧
    (o.update_params params grad).2.lr = o.lr ∧
    (o.update_params params grad).2.beta = o.beta ∧
    ((o.update_params params grad).1).length = params.length := by
  refine ⟨rfl, rfl, rfl, rfl, ?_⟩
  show (vecSub params (vecAdd (scale o.beta o.vel) (scale o.lr grad))).length
      = params.length
  rw [length_vecSub, length_vecAdd, length_scale, length_scale, hp, hv]
  omega

/-- Witness for C2 at a concrete state and matching shapes. -/
theorem C2_update_params_momentum_witness :
    ((GDOptimizerV.mk (1/2) (1/4) [1, 2]).update_params [3, 4] [5, 6]).2.vel =
      vecAdd (scale (GDOptimizerV.mk (1/2) (1/4) [1, 2]).beta
          (GDOptimizerV.mk (1/2) (1/4) [1, 2]).vel)
        (scale (GDOptimizerV.mk (1/2) (1/4) [1, 2]).lr [5, 6]) ∧
    ((GDOptimizerV.mk (1/2) (1/4) [1, 2]).update_params [3, 4] [5, 6]).1 =
      vecSub [3, 4]
        ((GDOptimizerV.mk (1/2) (1/4) [1, 2]).update_params [3, 4] [5, 6]).2.vel ∧
    ((GDOptimizerV.mk (1/2) (1/4) [1, 2]).update_params [3, 4] [5, 6]).2.lr =
      (GDOptimizerV.mk (1/2) (1/4) [1, 2]).lr ∧
    ((GDOptimizerV.mk (1/2) (1/4) [1, 2]).update_params [3, 4] [5, 6]).2.beta =
      (GDOptimizerV.mk (1/2) (1/4) [1, 2]).beta ∧
    (((GDOptimizerV.mk (1/2) (1/4) [1, 2]).update_params [3, 4] [5, 6]).1).length =
      ([3, 4] : List ℚ).length :=
  C2_update_params_momentum (GDOptimizerV.mk (1/2) (1/4) [1, 2]) [3, 4] [5, 6]
    (by decide) (by decide)

/-- C3: `hinge_loss(X, y)` has one entry per row of `X`; entry `i` is
`max(1 − y_i · (w · X_i), 0)`, hence `0` when `y_i · (w · X_i) ≥ 1` and
exactly `1 − y_i · (w · X_i)` otherwise. -/
theorem C3_hinge_loss_pointwise (svm : SVM) (X : List (List ℚ)) (y : List ℚ)
    (hrow : ∀ r ∈ X, r.length = svm.w.length) (hy : y.length = X.length)
    (i : ℕ) (hi : i < X.length) :
    (svm.hinge_loss X y).length = X.length ∧
    (svm.hinge_loss X y).getD i 0 =
      max (1 - y.getD i 0 * dot svm.w (X.getD i [])) 0 ∧
    (1 ≤ y.getD i 0 * dot svm.w (X.getD i []) →
      (svm.hinge_loss X y).getD i 0 = 0) ∧
    (y.getD i 0 * dot svm.w (X.getD i []) < 1 →
      (svm.hinge_loss X y).getD i 0 =
        1 - y.getD i 0 * dot svm.w (X.getD i [])) := by
  have hlen := hinge_loss_length svm X y
  have helt : (svm.hinge_loss X y).getD i 0 =
      max (1 - y.getD i 0 * dot svm.w (X.getD i [])) 0 := by
    rw [List.getD_eq_getElem _ _ (by omega : i < (svm.hinge_loss X y).length)]
    unfold SVM.hinge_loss
    rw [List.getElem_map, List.getElem_range]
  refine ⟨hlen, helt, ?_, ?_⟩
  · intro h
    rw [helt, max_eq_right (by linarith)]
  · intro h
    rw [helt, max_eq_left (by linarith)]

/-- Witness for C3 on a hand-built batch: `w = [1, 0]`, three rows, row 1. -/
theorem C3_hinge_loss_pointwise_witness :
    ((SVM.mk 1 [1, 0]).hinge_loss [[2, 0], [0, 1], [-3, 5]] [1, -1, 1]).length =
        ([[2, 0], [0, 1], [-3, 5]] : List (List ℚ)).length ∧
    ((SVM.mk 1 [1, 0]).hinge_loss [[2, 0], [0, 1], [-3, 5]] [1, -1, 1]).getD 1 0 =
      max (1 - ([1, -1, 1] : List ℚ).getD 1 0 *
        dot (SVM.mk 1 [1, 0]).w (([[2, 0], [0, 1], [-3, 5]] :
          List (List ℚ)).getD 1 [])) 0 ∧
    (1 ≤ ([1, -1, 1] : List ℚ).getD 1 0 *
        dot (SVM.mk 1 [1, 0]).w (([[2, 0], [0, 1], [-3, 5]] :
          List (List ℚ)).getD 1 []) →
      ((SVM.mk 1 [1, 0]).hinge_loss [[2, 0], [0, 1], [-3, 5]] [1, -1, 1]).getD 1 0
        = 0) ∧
    (([1, -1, 1] : List ℚ).getD 1 0 *
        dot (SVM.mk 1 [1, 0]).w (([[2, 0], [0, 1], [-3, 5]] :
          List (List ℚ)).getD 1 []) < 1 →
      ((SVM.mk 1 [1, 0]).hinge_loss [[2, 0], [0, 1], [-3, 5]] [1, -1, 1]).getD 1 0
        = 1 - ([1, -1, 1] : List ℚ).getD 1 0 *
            dot (SVM.mk 1 [1, 0]).w (([[2, 0], [0, 1], [-3, 5]] :
              List (List ℚ)).getD 1 [])) :=
  C3_hinge_loss_pointwise (SVM.mk 1 [1, 0]) [[2, 0], [0, 1], [-3, 5]]
    [1, -1, 1] (by decide) (by decide) 1 (by decide)

theorem stateAfter_lr (lr beta g : ℚ) (k : ℕ) :
    (stateAfter lr beta g k).lr = lr := by
  induction k with
  | zero => rfl
  | succ n ih => exact ih

theorem stateAfter_beta (lr beta g : ℚ) (k : ℕ) :
    (stateAfter lr beta g k).beta = beta := by
  induction k with
  | zero => rfl
  | succ n ih => exact ih

theorem stateAfter_vel (lr beta g : ℚ) (k : ℕ) :
    (stateAfter lr beta g k).vel =
      lr * g * ∑ i ∈ Finset.range k, beta ^ i := by
  induction k with
  | zero => simp [stateAfter, GDOptimizer.mk0]
  | succ n ih =>
    have hstep : (stateAfter lr beta g (n + 1)).vel =
        beta * (stateAfter lr beta g n).vel + lr * g := by
      show (stateAfter lr beta g n).beta * (stateAfter lr beta g n).vel +
          (stateAfter lr beta g n).lr * g =
        beta * (stateAfter lr beta g n).vel + lr * g
      rw [stateAfter_beta lr beta g n, stateAfter_lr lr beta g n]
    rw [hstep, ih, geom_sum_succ]
    ring

/-- C4: starting from a freshly constructed optimizer (zero velocity), after
`k ≥ 1` calls to `update_params` each passing the constant gradient `g`, the
stored velocity equals `lr · g · (1 + beta + … + beta^(k-1))`. -/
theorem C4_momentum_accumulation (lr beta g : ℚ) (k : ℕ)
    (hb0 : 0 ≤ beta) (hb1 : beta < 1) (hk : 1 ≤ k) :
    (stateAfter lr beta g k).vel =
      lr * g * ∑ i ∈ Finset.range k, beta ^ i :=
  stateAfter_vel lr beta g k

/-- Witness for C4 at `lr = 1`, `beta = 1/2`, `g = 1`, `k = 5`. -/
theorem C4_momentum_accumulation_witness :
    (stateAfter 1 (1/2) 1 5).vel =
      1 * 1 * ∑ i ∈ Finset.range 5, ((1 : ℚ)/2) ^ i :=
  C4_momentum_accumulation 1 (1/2) 1 5 (by norm_num) (by norm_num)
    (by norm_num)

/-- C5: on a sampler over `N = data.length` points, `random_batch_indices`
returns exactly `m` pairwise-distinct indices in `[0, N)` whenever the
requested size `m` (the default `batch_size` when the argument is omitted)
satisfies `m ≤ N`, and fails whenever `m > N`. -/
theorem C5_random_batch_indices_spec (data : List (List ℚ))
    (targets : List ℚ) (b : ℕ) (mo : Option ℕ) (s : List ℕ) :
    (mo.getD b ≤ data.length →
      ∃ l, (BatchSampler.mk0 data targets b).random_batch_indices mo s =
          some l ∧
        l.length = mo.getD b ∧ l.Nodup ∧ ∀ x ∈ l, x < data.length) ∧
    (data.length < mo.getD b →
      (BatchSampler.mk0 data targets b).random_batch_indices mo s = none) := by
  have key := npChoice_range_spec data.length (mo.getD b) s
  cases mo with
  | none =>
    exact key
  | some mm =>
    exact key

/-- Witness for C5: both the omitted-size success case and the oversized
failure case on a three-point dataset. -/
theorem C5_random_batch_indices_spec_witness :
    ((Option.none.getD 2 ≤ ([[1], [2], [3]] : List (List ℚ)).length →
      ∃ l, (BatchSampler.mk0 [[1], [2], [3]] [1, -1, 1] 2).random_batch_indices
          none [5, 0] = some l ∧
        l.length = Option.none.getD 2 ∧ l.Nodup ∧
        ∀ x ∈ l, x < ([[1], [2], [3]] : List (List ℚ)).length) ∧
    (([[1], [2], [3]] : List (List ℚ)).length < Option.none.getD 2 →
      (BatchSampler.mk0 [[1], [2], [3]] [1, -1, 1] 2).random_batch_indices
        none [5, 0] = none)) ∧
    (((Option.some 4).getD 2 ≤ ([[1], [2], [3]] : List (List ℚ)).length →
      ∃ l, (BatchSampler.mk0 [[1], [2], [3]] [1, -1, 1] 2).random_batch_indices
          (some 4) [5, 0] = some l ∧
        l.length = (Option.some 4).getD 2 ∧ l.Nodup ∧
        ∀ x ∈ l, x < ([[1], [2], [3]] : List (List ℚ)).length) ∧
    (([[1], [2], [3]] : List (List ℚ)).length < (Option.some 4).getD 2 →
      (BatchSampler.mk0 [[1], [2], [3]] [1, -1, 1] 2).random_batch_indices
        (some 4) [5, 0] = none)) :=
  ⟨C5_random_batch_indices_spec [[1], [2], [3]] [1, -1, 1] 2 none [5, 0],
   C5_random_batch_indices_spec [[1], [2], [3]] [1, -1, 1] 2 (some 4) [5, 0]⟩

/-- C6: `classify(X)` returns one label per row, each label is `+1` or `-1`,
the label is `+1` exactly when `w · x ≥ 0` (a zero dot product yields `+1`)
and `-1` exactly when `w · x < 0`. -/
theorem C6_classify_sign_convention (svm : SVM) (X : List (List ℚ))
    (hrow : ∀ r ∈ X, r.length = svm.w.length) (i : ℕ) (hi : i < X.length) :
    (svm.classify X).length = X.length ∧
    ((svm.classify X).getD i 0 = 1 ∨ (svm.classify X).getD i 0 = -1) ∧
    ((svm.classify X).getD i 0 = 1 ↔ 0 ≤ dot svm.w (X.getD i [])) ∧
    ((svm.classify X).getD i 0 = -1 ↔ dot svm.w (X.getD i []) < 0) := by
  have hlen : (svm.classify X).length = X.length := by
    simp [SVM.classify]
  have helt : (svm.classify X).getD i 0 =
      if 0 ≤ dot svm.w (X.getD i []) then 1 else -1 := by
    rw [List.getD_eq_getElem _ _ (by omega : i < (svm.classify X).length)]
    unfold SVM.classify
    rw [List.getElem_map, List.getD_eq_getElem _ _ hi]
  refine ⟨hlen, ?_, ?_, ?_⟩
  · by_cases h : 0 ≤ dot svm.w (X.getD i [])
    · left; rw [helt, if_pos h]
    · right; rw [helt, if_neg h]
  · constructor
    · intro h1
      by_contra hneg
      rw [helt, if_neg hneg] at h1
      exact absurd h1 (by decide)
    · intro h
      rw [helt, if_pos h]
  · constructor
    · intro h1
      by_contra hpos
      rw [helt, if_pos (by linarith : 0 ≤ dot svm.w (X.getD i []))] at h1
      exact absurd h1 (by decide)
    · intro h
      rw [helt, if_neg (by linarith : ¬ 0 ≤ dot svm.w (X.getD i []))]

/-- Witness for C6 on a row with dot product exactly zero (`w = [1, 0]`,
row `[0, 7]`), checking the tie resolves to `+1`. -/
theorem C6_classify_sign_convention_witness :
    ((SVM.mk 1 [1, 0]).classify [[0, 7]]).length =
        ([[0, 7]] : List (List ℚ)).length ∧
    (((SVM.mk 1 [1, 0]).classify [[0, 7]]).getD 0 0 = 1 ∨
      ((SVM.mk 1 [1, 0]).classify [[0, 7]]).getD 0 0 = -1) ∧
    (((SVM.mk 1 [1, 0]).classify [[0, 7]]).getD 0 0 = 1 ↔
      0 ≤ dot (SVM.mk 1 [1, 0]).w (([[0, 7]] : List (List ℚ)).getD 0 [])) ∧
    (((SVM.mk 1 [1, 0]).classify [[0, 7]]).getD 0 0 = -1 ↔
      dot (SVM.mk 1 [1, 0]).w (([[0, 7]] : List (List ℚ)).getD 0 []) < 0) :=
  C6_classify_sign_convention (SVM.mk 1 [1, 0]) [[0, 7]] (by decide) 0
    (by decide)

/-- C7: the batch returned by `get_batch` pairs rows and labels by the sampled
index sequence: the `j`-th returned feature row is the dataset row at the
`j`-th sampled index and the `j`-th returned label is the label at that same
index, in sampled order. -/
theorem C7_get_batch_pairing (data : List (List ℚ)) (targets : List ℚ)
    (b : ℕ) (mo : Option ℕ) (s : List ℕ) (l : List ℕ)
    (Xb : List (List ℚ)) (yb : List ℚ)
    (hl : (BatchSampler.mk0 data targets b).random_batch_indices mo s = some l)
    (hb : (BatchSampler.mk0 data targets b).get_batch mo s = some (Xb, yb))
    (j : ℕ) (hj : j < l.length) :
    Xb.length = l.length ∧ yb.length = l.length ∧
    Xb.getD j [] = data.getD (l.getD j 0) [] ∧
    yb.getD j 0 = targets.getD (l.getD j 0) 0 := by
  unfold BatchSampler.get_batch at hb
  rw [hl] at hb
  simp only [Option.map_some', Option.some.injEq, Prod.mk.injEq] at hb
  obtain ⟨hXb, hyb⟩ := hb
  subst hXb
  subst hyb
  refine ⟨List.length_map l _, List.length_map l _, ?_, ?_⟩
  · rw [List.getD_eq_getElem _ _ (by simpa using hj), List.getElem_map,
      List.getD_eq_getElem l 0 hj]
    rfl
  · rw [List.getD_eq_getElem _ _ (by simpa using hj), List.getElem_map,
      List.getD_eq_getElem l 0 hj]
    rfl

/-- Witness for C7 on a three-point dataset with batch size 2: seed `[5, 0]`
samples indices `[2, 0]`, so the batch is rows `2` and `0` with their labels. -/
theorem C7_get_batch_pairing_witness :
    ([[30], [10]] : List (List ℚ)).length = ([2, 0] : List ℕ).length ∧
    ([1, 1] : List ℚ).length = ([2, 0] : List ℕ).length ∧
    ([[30], [10]] : List (List ℚ)).getD 0 [] =
      ([[10], [20], [30]] : List (List ℚ)).getD
        (([2, 0] : List ℕ).getD 0 0) [] ∧
    ([1, 1] : List ℚ).getD 0 0 =
      ([1, -1, 1] : List ℚ).getD (([2, 0] : List ℕ).getD 0 0) 0 :=
  C7_get_batch_pairing [[10], [20], [30]] [1, -1, 1] 2 none [5, 0] [2, 0]
    [[30], [10]] [1, 1] (by decide) (by decide) 0 (by decide)

/-- C8: with the random source's state fixed identically before each run, two
runs of the full SVM training loop on the same configuration produce identical
final weight vectors. All randomness the loop consumes (weight initialization
and batch sampling) lives in the explicit `RandState`, so the result is a
function of the configuration and that state alone. -/
theorem C8_training_determinism (train_data : List (List ℚ))
    (train_targets : List ℚ) (penalty lr beta : ℚ) (batchsize iters : ℕ)
    (s1 s2 : RandState) (hseed : s1 = s2) :
    (optimize_svm train_data train_targets penalty lr beta batchsize iters
      s1).map SVM.w =
    (optimize_svm train_data train_targets penalty lr beta batchsize iters
      s2).map SVM.w := by
  rw [hseed]

/-- Witness for C8: a two-point dataset trained for two iterations from a
concrete seeded state. -/
theorem C8_training_determinism_witness :
    (optimize_svm [[1], [2]] [1, -1] 1 (1/20) 0 1 2
      (RandState.mk [1/10] [0, 1, 1, 0])).map SVM.w =
    (optimize_svm [[1], [2]] [1, -1] 1 (1/20) 0 1 2
      (RandState.mk [1/10] [0, 1, 1, 0])).map SVM.w :=
  C8_training_determinism [[1], [2]] [1, -1] 1 (1/20) 0 1 2
    (RandState.mk [1/10] [0, 1, 1, 0]) (RandState.mk [1/10] [0, 1, 1, 0]) rfl

/-- C9: `hinge_loss`, `grad` and `classify` are read-only: after any of these
calls the receiver's `w` and `c` and the argument arrays are exactly their
pre-call values; only an explicit reassignment of `w` by the caller changes
the model. -/
theorem C9_methods_frame (svm : SVM) (X : List (List ℚ)) (y : List ℚ) :
    (svm.hinge_loss_call X y).2.1 = svm ∧
    (svm.hinge_loss_call X y).2.2.1 = X ∧
    (svm.hinge_loss_call X y).2.2.2 = y ∧
    (svm.grad_call X y).2.1 = svm ∧
    (svm.grad_call X y).2.2.1 = X ∧
    (svm.grad_call X y).2.2.2 = y ∧
    (svm.classify_call X).2.1 = svm ∧
    (svm.classify_call X).2.2 = X ∧
    (svm.hinge_loss_call X y).2.1.w = svm.w ∧
    (svm.hinge_loss_call X y).2.1.c = svm.c ∧
    (svm.grad_call X y).2.1.w = svm.w ∧
    (svm.grad_call X y).2.1.c = svm.c ∧
    (svm.classify_call X).2.1.w = svm.w ∧
    (svm.classify_call X).2.1.c = svm.c :=
  ⟨rfl, rfl, rfl, rfl, rfl, rfl, rfl, rfl, rfl, rfl, rfl, rfl, rfl, rfl⟩

/-- C10: the `BatchSampler` constructor performs no validation of `batch_size`
against the dataset size — it always succeeds and stores the fields as given,
even when `batch_size > N` — and the failure surfaces only on a call that
actually requests more than `N` indices: the default-size call fails, while an
explicit request of at most `N` indices on the same sampler still succeeds. -/
theorem C10_constructor_no_validation (data : List (List ℚ))
    (targets : List ℚ) (b : ℕ) (s : List ℕ) (hb : data.length < b) :
    (BatchSampler.mk0 data targets b).batch_size = b ∧
    (BatchSampler.mk0 data targets b).num_points = data.length ∧
    (BatchSampler.mk0 data targets b).data = data ∧
    (BatchSampler.mk0 data targets b).targets = targets ∧
    (BatchSampler.mk0 data targets b).random_batch_indices none s = none ∧
    (BatchSampler.mk0 data targets b).get_batch none s = none ∧
    ∀ m, m ≤ data.length →
      ((BatchSampler.mk0 data targets b).random_batch_indices
        (some m) s).isSome = true := by
  have hfail := (npChoice_range_spec data.length b s).2 hb
  refine ⟨rfl, rfl, rfl, rfl, hfail, ?_, ?_⟩
  · unfold BatchSampler.get_batch
    have : (BatchSampler.mk0 data targets b).random_batch_indices none s =
        none := hfail
    rw [this]
    rfl
  · intro m hm
    obtain ⟨l, hl, _⟩ := (npChoice_range_spec data.length m s).1 hm
    have : (BatchSampler.mk0 data targets b).random_batch_indices
        (some m) s = some l := hl
    rw [this]
    rfl

/-- Witness for C10: a sampler built over three points with oversized default
batch size `5`. -/
theorem C10_constructor_no_validation_witness :
    (BatchSampler.mk0 [[1], [2], [3]] [1, -1, 1] 5).batch_size = 5 ∧
    (BatchSampler.mk0 [[1], [2], [3]] [1, -1, 1] 5).num_points =
      ([[1], [2], [3]] : List (List ℚ)).length ∧
    (BatchSampler.mk0 [[1], [2], [3]] [1, -1, 1] 5).data =
      ([[1], [2], [3]] : List (List ℚ)) ∧
    (BatchSampler.mk0 [[1], [2], [3]] [1, -1, 1] 5).targets =
      ([1, -1, 1] : List ℚ) ∧
    (BatchSampler.mk0 [[1], [2], [3]] [1, -1, 1] 5).random_batch_indices
      none [5, 0] = none ∧
    (BatchSampler.mk0 [[1], [2], [3]] [1, -1, 1] 5).get_batch
      none [5, 0] = none ∧
    ∀ m, m ≤ ([[1], [2], [3]] : List (List ℚ)).length →
      ((BatchSampler.mk0 [[1], [2], [3]] [1, -1, 1] 5).random_batch_indices
        (some m) [5, 0]).isSome = true :=
  C10_constructor_no_validation [[1], [2], [3]] [1, -1, 1] 5 [5, 0]
    (by decide)
